import Mathlib

/-!
Verification development for kiss-ntpd (src/main.rs), a minimal stateless
NTP server.  The pure core of the program is embedded shallowly:

* a received datagram is a `List Nat` of byte values (each `< 256`, the
  Rust buffer being `[u8; 1024]`), together with the sender's port and
  the local receipt timestamp captured right after `recv_from`;
* `NtpPacket.receive` models the decoding part of `NtpPacket::receive`
  (everything after the socket read), `NtpPacket.send` models the byte
  serialization of `NtpPacket::send` (everything before the socket write);
* `NtpTimestamp::now()` reads the real clock and performs an `f64`
  multiplication, so it is treated as an oracle: functions that call it in
  the source take the produced timestamps as explicit arguments here;
* the argument / environment-variable helpers (`arg_to_env`,
  `env_for_arg`, `Args::flag`, `Args::get_option`) are embedded over an
  explicit environment `String → Option String`.
-/

/-- Byte `i` of the receive buffer.  The Rust buffer `[0u8; 1024]` is
zero-initialized, hence the default `0` past the end of the datagram;
the decoder only ever reads offsets below 48, which are real datagram
bytes because datagrams shorter than 48 bytes were already rejected. -/
def byteAt (buf : List Nat) (i : Nat) : Nat :=
  (buf[i]?).getD 0

/-- Big-endian read of `n` bytes starting at offset `off`
(models `u32::from_be_bytes` / `u64::from_be_bytes` on a slice). -/
def readBE (buf : List Nat) (off : Nat) : Nat → Nat
  | 0 => 0
  | n + 1 => readBE buf off n * 256 + byteAt buf (off + n)

/-- Big-endian write of `v` as `n` bytes
(models `to_be_bytes` followed by `copy_from_slice`). -/
def writeBE : Nat → Nat → List Nat
  | _, 0 => []
  | v, n + 1 => writeBE (v / 256) n ++ [v % 256]

/-- The `n`-byte slice of the buffer starting at offset `off`,
written in the same last-byte-first recursion as `readBE`. -/
def sliceBE (buf : List Nat) (off : Nat) : Nat → List Nat
  | 0 => []
  | n + 1 => sliceBE buf off n ++ [byteAt buf (off + n)]

/-- Reinterpretation of a byte as a signed 8-bit value
(models Rust `b as i8`). -/
def byteToI8 (b : Nat) : Int :=
  if b < 128 then (b : Int) else (b : Int) - 256

/-- Reinterpretation of a signed 8-bit value as a byte
(models Rust `v as u8`, i.e. reduction mod 256). -/
def i8ToByte (v : Int) : Nat :=
  (Int.emod v 256).toNat

/-- `struct NtpTimestamp { ts: u64 }`. -/
structure NtpTimestamp where
  ts : Nat
  deriving DecidableEq, Repr

/-- `NtpTimestamp::zero()`. -/
def NtpTimestamp.zero : NtpTimestamp := ⟨0⟩

/-- `NtpTimestamp::read` on the 8-byte slice at offset `off`. -/
def NtpTimestamp.read (buf : List Nat) (off : Nat) : NtpTimestamp :=
  ⟨readBE buf off 8⟩

/-- `NtpTimestamp::write`: the 8 big-endian bytes of the value. -/
def NtpTimestamp.write (t : NtpTimestamp) : List Nat :=
  writeBE t.ts 8

/-- `struct NtpFracValue { val: u32 }`. -/
structure NtpFracValue where
  val : Nat
  deriving DecidableEq, Repr

/-- `NtpFracValue::zero()`. -/
def NtpFracValue.zero : NtpFracValue := ⟨0⟩

/-- `NtpFracValue::read` on the 4-byte slice at offset `off`. -/
def NtpFracValue.read (buf : List Nat) (off : Nat) : NtpFracValue :=
  ⟨readBE buf off 4⟩

/-- `NtpFracValue::write`: the 4 big-endian bytes of the value. -/
def NtpFracValue.write (f : NtpFracValue) : List Nat :=
  writeBE f.val 4

/-- `struct NtpPacket`.  Of the remote socket address only the port is kept,
which is the only part the program's logic inspects
(`self.remote_addr.port()` in `is_request`). -/
structure NtpPacket where
  remote_port : Nat
  local_ts : NtpTimestamp
  leap : Nat
  version : Nat
  mode : Nat
  stratum : Nat
  poll : Int
  precision : Int
  delay : NtpFracValue
  dispersion : NtpFracValue
  ref_id : Nat
  ref_ts : NtpTimestamp
  orig_ts : NtpTimestamp
  rx_ts : NtpTimestamp
  tx_ts : NtpTimestamp
  deriving DecidableEq, Repr

/-- The two recoverable decode failures of `NtpPacket::receive`
(`Packet too short` and `Unsupported version`). -/
inductive DecodeError where
  | tooShort
  | unsupportedVersion
  deriving DecidableEq, Repr

/-- The field extraction performed by `NtpPacket::receive` once the length
and version checks have passed. -/
def NtpPacket.decodeFields (buf : List Nat) (port : Nat) (local_ts : NtpTimestamp) : NtpPacket :=
  { remote_port := port
    local_ts := local_ts
    leap := byteAt buf 0 / 64
    version := (byteAt buf 0 / 8) % 8
    mode := byteAt buf 0 % 8
    stratum := byteAt buf 1
    poll := byteToI8 (byteAt buf 2)
    precision := byteToI8 (byteAt buf 3)
    delay := NtpFracValue.read buf 4
    dispersion := NtpFracValue.read buf 8
    ref_id := readBE buf 12 4
    ref_ts := NtpTimestamp.read buf 16
    orig_ts := NtpTimestamp.read buf 24
    rx_ts := NtpTimestamp.read buf 32
    tx_ts := NtpTimestamp.read buf 40 }

/-- `NtpPacket::receive`, socket read removed: the datagram bytes, the
sender's port and the receipt timestamp (captured by `NtpTimestamp::now()`
right after `recv_from`) are passed in.  Mirrors the source order: length
check, bit-field extraction of byte 0, version range check, field reads. -/
def NtpPacket.receive (buf : List Nat) (port : Nat) (local_ts : NtpTimestamp) :
    Except DecodeError NtpPacket :=
  if buf.length < 48 then
    Except.error DecodeError.tooShort
  else if (byteAt buf 0 / 8) % 8 < 1 ∨ 4 < (byteAt buf 0 / 8) % 8 then
    Except.error DecodeError.unsupportedVersion
  else
    Except.ok (NtpPacket.decodeFields buf port local_ts)

/-- Byte 0 of the serialized packet:
`self.leap << 6 | self.version << 3 | self.mode` on `u8` values. -/
def packLVM (leap version mode : Nat) : Nat :=
  Nat.lor (Nat.lor (leap * 64 % 256) (version * 8 % 256)) (mode % 256)

/-- `NtpPacket::send`, socket write removed: the exact 48 bytes written
into the response buffer. -/
def NtpPacket.send (p : NtpPacket) : List Nat :=
  packLVM p.leap p.version p.mode ::
  p.stratum % 256 ::
  i8ToByte p.poll ::
  i8ToByte p.precision ::
  (p.delay.write ++ p.dispersion.write ++ writeBE p.ref_id 4 ++
    p.ref_ts.write ++ p.orig_ts.write ++ p.rx_ts.write ++ p.tx_ts.write)

/-- `NtpPacket::is_request`. -/
def NtpPacket.is_request (p : NtpPacket) : Bool :=
  p.mode == 1 || p.mode == 3 ||
    (p.mode == 0 && p.version == 1 && p.remote_port != 123)

/-- `NtpPacket::make_response`.  The source calls `NtpTimestamp::now()`
twice (for `ref_ts` and then `tx_ts`); those two clock readings are the
`refNow` and `txNow` arguments. -/
def NtpPacket.make_response (p : NtpPacket) (refNow txNow : NtpTimestamp) :
    Option NtpPacket :=
  if p.is_request = false then
    none
  else
    some
      { remote_port := p.remote_port
        local_ts := NtpTimestamp.zero
        leap := 0
        version := p.version
        mode := if p.mode = 1 then 2 else 4
        stratum := 8
        poll := p.poll
        precision := 0
        delay := NtpFracValue.zero
        dispersion := NtpFracValue.zero
        ref_id := 0
        ref_ts := refNow
        orig_ts := p.tx_ts
        rx_ts := p.local_ts
        tx_ts := txNow }

/-- One iteration of `NtpServer::process_requests`, socket I/O and logging
removed: the bytes sent back for one received datagram, or `none` when the
datagram is dropped (decode failure or non-request). -/
def processDatagram (buf : List Nat) (port : Nat) (localTs refNow txNow : NtpTimestamp) :
    Option (List Nat) :=
  match NtpPacket.receive buf port localTs with
  | Except.error _ => none
  | Except.ok req =>
    match req.make_response refNow txNow with
    | none => none
    | some resp => some resp.send

/-- The character constant used by the flag-to-environment translation. -/
def dashChar : Char := '-'

/-- The character substituted for dashes in environment variable names. -/
def underscoreChar : Char := '_'

/-- The fixed product namespace of mirrored environment variables. -/
def kissNtpdNs : String := "KISS_NTPD_"

/-- `arg.starts_with("--")`. -/
def startsDashDash (l : List Char) : Bool :=
  match l with
  | c1 :: c2 :: _ => c1 == dashChar && c2 == dashChar
  | _ => false

/-- `arg.trim_matches('-')`: removes leading and trailing dashes. -/
def trimDashes (l : List Char) : List Char :=
  ((l.dropWhile (fun c => c == dashChar)).reverse.dropWhile
    (fun c => c == dashChar)).reverse

/-- `arg_to_env`: `None` unless the flag starts with `--`; otherwise the
trimmed flag with inner dashes replaced by underscores, uppercased and
prefixed with the product namespace.  `make_ascii_uppercase` acts on the
whole string, but the namespace is already uppercase, so uppercasing only
the suffix is the same function. -/
def arg_to_env (arg : String) : Option String :=
  if startsDashDash arg.toList then
    some (String.mk (kissNtpdNs.toList ++
      (((trimDashes arg.toList).map
        (fun c => if c == dashChar then underscoreChar else c)).map Char.toUpper)))
  else
    none

/-- `env_for_arg`: the value of the mirrored environment variable, the
process environment being passed in as a function. -/
def env_for_arg (env : String → Option String) (arg : String) : Option String :=
  (arg_to_env arg).bind env

/-- `Args::flag`: `true` when the flag is on the command line, otherwise
the mirrored environment variable decides, with `""`, `"0"` and `"false"`
meaning `false`. -/
def Args.flag (args : List String) (env : String → Option String) (f : String) : Bool :=
  if args.contains f then
    true
  else
    match env_for_arg env f with
    | some e => (e != "") && (e != "0") && (e != "false")
    | none => false

/-- The inner loop of `Args::get_option` for one flag: the argument
following the first occurrence of the flag, if any. -/
def findAfter (flag : String) : List String → Option String
  | [] => none
  | a :: rest => if a == flag then rest.head? else findAfter flag rest

/-- The first command-line loop of `Args::get_option` over all aliases. -/
def getOptionCmd (args : List String) : List String → Option String
  | [] => none
  | f :: fs =>
    match findAfter f args with
    | some v => some v
    | none => getOptionCmd args fs

/-- The environment fallback loop of `Args::get_option`. -/
def getOptionEnv (env : String → Option String) : List String → Option String
  | [] => none
  | f :: fs =>
    match env_for_arg env f with
    | some v => some v
    | none => getOptionEnv env fs

/-- `Args::get_option`: command-line scan first, environment fallback
second. -/
def Args.get_option (args : List String) (env : String → Option String)
    (flags : List String) : Option String :=
  match getOptionCmd args flags with
  | some v => some v
  | none => getOptionEnv env flags

/-- The command-line flags `main` queries (`args.flag` / `args.get_str`
calls in `fn main`). -/
def acceptedFlags : List String :=
  ["-V", "-v", "--version", "-b", "--bind", "-h", "--help", "-d", "--debug"]

/-- Modelled from the spec: the mirrored environment variable name the
claim describes — the flag name (without its leading dashes) uppercased
with non-alphanumeric characters replaced by underscores, prefixed with
the fixed namespace. -/
def specEnvName (arg : String) : String :=
  String.mk (kissNtpdNs.toList ++
    ((arg.toList.dropWhile (fun c => c == dashChar)).map
      (fun c => if c.isAlphanum then c.toUpper else underscoreChar)))

lemma byteAt_lt (buf : List Nat) (hbytes : ∀ b ∈ buf, b < 256) {i : Nat}
    (hi : i < buf.length) : byteAt buf i < 256 := by
  rw [byteAt, List.getElem?_eq_getElem hi, Option.getD_some]
  exact hbytes _ (List.getElem_mem hi)

lemma writeBE_length : ∀ n v : Nat, (writeBE v n).length = n := by
  intro n
  induction n with
  | zero => intro v; rfl
  | succ n ih => intro v; simp [writeBE, ih]

lemma writeBE_readBE (buf : List Nat) (off : Nat) :
    ∀ n, (∀ i, i < n → byteAt buf (off + i) < 256) →
      writeBE (readBE buf off n) n = sliceBE buf off n := by
  intro n
  induction n with
  | zero => intro _; rfl
  | succ n ih =>
    intro h
    have hb : byteAt buf (off + n) < 256 := h n (Nat.lt_succ_self n)
    have hdiv : (readBE buf off n * 256 + byteAt buf (off + n)) / 256 = readBE buf off n := by
      rw [Nat.mul_comm (readBE buf off n) 256, Nat.mul_add_div (by norm_num),
        Nat.div_eq_of_lt hb, Nat.add_zero]
    have hmod : (readBE buf off n * 256 + byteAt buf (off + n)) % 256 = byteAt buf (off + n) := by
      rw [Nat.mul_comm (readBE buf off n) 256, Nat.mul_add_mod, Nat.mod_eq_of_lt hb]
    simp only [readBE, writeBE, sliceBE, hdiv, hmod,
      ih (fun i hi => h i (Nat.lt_succ_of_lt hi))]

lemma sliceBE_append (buf : List Nat) (off m : Nat) :
    ∀ n, sliceBE buf off m ++ sliceBE buf (off + m) n = sliceBE buf off (m + n) := by
  intro n
  induction n with
  | zero => simp [sliceBE]
  | succ n ih =>
    rw [Nat.add_succ]
    simp only [sliceBE]
    rw [← List.append_assoc, ih, Nat.add_assoc]
    rfl

lemma sliceBE_take (buf : List Nat) :
    ∀ n, n ≤ buf.length → sliceBE buf 0 n = buf.take n := by
  intro n
  induction n with
  | zero => intro _; rfl
  | succ n ih =>
    intro h
    have hn : n < buf.length := h
    simp only [sliceBE, Nat.zero_add, ih (Nat.le_of_lt hn), List.take_succ, byteAt,
      List.getElem?_eq_getElem hn, Option.getD_some, Option.toList_some]

set_option maxRecDepth 4000 in
lemma packLVM_unpack : ∀ b, b < 256 → packLVM (b / 64) (b / 8 % 8) (b % 8) = b := by
  decide

set_option maxRecDepth 4000 in
lemma i8_roundtrip : ∀ b, b < 256 → i8ToByte (byteToI8 b) = b := by
  decide

set_option maxRecDepth 4000 in
lemma packLVM_eq_add :
    ∀ l, l ≤ 3 → ∀ v, v ≤ 7 → ∀ m, m ≤ 7 → packLVM l v m = l * 64 + v * 8 + m := by
  decide

/-- A concrete 48-byte client request datagram: byte 0 is 35
(leap 0, version 4, mode 3), all other bytes 0. -/
def reqBuf : List Nat := 35 :: List.replicate 47 0

/-- The packet `NtpPacket.receive` decodes from `reqBuf` when it arrives
from port 999 with receipt timestamp 5. -/
def reqPkt : NtpPacket :=
  { remote_port := 999, local_ts := ⟨5⟩, leap := 0, version := 4, mode := 3,
    stratum := 0, poll := 0, precision := 0, delay := ⟨0⟩, dispersion := ⟨0⟩,
    ref_id := 0, ref_ts := ⟨0⟩, orig_ts := ⟨0⟩, rx_ts := ⟨0⟩, tx_ts := ⟨0⟩ }

/-- The response `make_response` builds from `reqPkt` with clock readings
7 and 9. -/
def respPkt : NtpPacket :=
  { remote_port := 999, local_ts := ⟨0⟩, leap := 0, version := 4, mode := 4,
    stratum := 8, poll := 0, precision := 0, delay := ⟨0⟩, dispersion := ⟨0⟩,
    ref_id := 0, ref_ts := ⟨7⟩, orig_ts := ⟨0⟩, rx_ts := ⟨5⟩, tx_ts := ⟨9⟩ }

/-- A mode-4 (server reply) packet, which the classifier must ignore. -/
def nonReqPkt : NtpPacket := { reqPkt with mode := 4 }

/-- C1: for every decoded request, the response's `orig_ts` is the
request's `tx_ts`, and its `rx_ts` is the request's `local_ts`, which
`receive` set to the timestamp captured at decode time — independent of
the `now()` readings made during synthesis. -/
theorem response_orig_rx_timestamps (buf : List Nat) (port : Nat)
    (ts refNow txNow : NtpTimestamp) (p r : NtpPacket)
    (hrec : NtpPacket.receive buf port ts = Except.ok p)
    (hreq : p.is_request = true)
    (hresp : p.make_response refNow txNow = some r) :
    r.orig_ts = p.tx_ts ∧ r.rx_ts = p.local_ts ∧ r.rx_ts = ts := by
  have hloc : p.local_ts = ts := by
    unfold NtpPacket.receive at hrec
    split at hrec
    · simp at hrec
    · split at hrec
      · simp at hrec
      · simp only [Except.ok.injEq] at hrec
        subst hrec
        rfl
  unfold NtpPacket.make_response at hresp
  split at hresp
  · simp at hresp
  · simp only [Option.some.injEq] at hresp
    subst hresp
    exact ⟨rfl, rfl, hloc⟩

/-- Witness for C1 on the concrete request `reqBuf`. -/
theorem response_orig_rx_timestamps_witness :
    NtpPacket.receive reqBuf 999 ⟨5⟩ = Except.ok reqPkt ∧
    reqPkt.make_response ⟨7⟩ ⟨9⟩ = some respPkt ∧
    respPkt.orig_ts = reqPkt.tx_ts ∧ respPkt.rx_ts = NtpTimestamp.mk 5 := by
  refine ⟨by rfl, by decide, ?_, ?_⟩
  · exact (response_orig_rx_timestamps reqBuf 999 ⟨5⟩ ⟨7⟩ ⟨9⟩ reqPkt respPkt
      (by rfl) (by decide) (by decide)).1
  · exact (response_orig_rx_timestamps reqBuf 999 ⟨5⟩ ⟨7⟩ ⟨9⟩ reqPkt respPkt
      (by rfl) (by decide) (by decide)).2.2

/-- C2: `is_request` is true exactly for mode 1, mode 3, or
mode 0 with version 1 from a source port other than 123; for every other
packet `make_response` produces nothing. -/
theorem is_request_classification (p : NtpPacket) (refNow txNow : NtpTimestamp) :
    (p.is_request = true ↔
      (p.mode = 1 ∨ p.mode = 3 ∨ (p.mode = 0 ∧ p.version = 1 ∧ p.remote_port ≠ 123)))
    ∧ (p.is_request = false → p.make_response refNow txNow = none) := by
  constructor
  · simp only [NtpPacket.is_request, Bool.or_eq_true, Bool.and_eq_true, beq_iff_eq, bne_iff_ne]
    tauto
  · intro h
    simp [NtpPacket.make_response, h]

/-- Witness for C2: the classification of the concrete mode-3 request,
and the silent drop of a concrete mode-4 packet. -/
theorem is_request_classification_witness :
    (reqPkt.is_request = true ↔
      (reqPkt.mode = 1 ∨ reqPkt.mode = 3 ∨
        (reqPkt.mode = 0 ∧ reqPkt.version = 1 ∧ reqPkt.remote_port ≠ 123)))
    ∧ nonReqPkt.make_response ⟨0⟩ ⟨0⟩ = none :=
  ⟨(is_request_classification reqPkt ⟨0⟩ ⟨0⟩).1,
   (is_request_classification nonReqPkt ⟨0⟩ ⟨0⟩).2 (by decide)⟩

/-- C4: every synthesized response has leap 0, stratum 8, precision 0,
ref_id 0, zero delay and dispersion, the request's version and poll, and
mode 2 for a mode-1 request, mode 4 otherwise. -/
theorem make_response_constant_fields (p : NtpPacket) (refNow txNow : NtpTimestamp)
    (r : NtpPacket) (h : p.make_response refNow txNow = some r) :
    r.leap = 0 ∧ r.stratum = 8 ∧ r.precision = 0 ∧ r.ref_id = 0 ∧
      r.delay = NtpFracValue.zero ∧ r.dispersion = NtpFracValue.zero ∧
      r.version = p.version ∧ r.poll = p.poll ∧
      r.mode = (if p.mode = 1 then 2 else 4) := by
  unfold NtpPacket.make_response at h
  split at h
  · simp at h
  · simp only [Option.some.injEq] at h
    subst h
    exact ⟨rfl, rfl, rfl, rfl, rfl, rfl, rfl, rfl, rfl⟩

/-- Witness for C4 on the concrete request/response pair. -/
theorem make_response_constant_fields_witness :
    respPkt.leap = 0 ∧ respPkt.stratum = 8 ∧ respPkt.precision = 0 ∧ respPkt.ref_id = 0 ∧
      respPkt.delay = NtpFracValue.zero ∧ respPkt.dispersion = NtpFracValue.zero ∧
      respPkt.version = reqPkt.version ∧ respPkt.poll = reqPkt.poll ∧
      respPkt.mode = (if reqPkt.mode = 1 then 2 else 4) :=
  make_response_constant_fields reqPkt ⟨7⟩ ⟨9⟩ respPkt (by decide)

/-- C3: decoding fails with the too-short error exactly for datagrams
under 48 bytes (that check wins over the version check), with the
unsupported-version error exactly for datagrams of at least 48 bytes whose
3-bit version field lies outside 1..4, succeeds in every other case, and a
datagram whose decode fails produces no response bytes. -/
theorem receive_error_taxonomy (buf : List Nat) (port : Nat) (ts : NtpTimestamp) :
    (NtpPacket.receive buf port ts = Except.error DecodeError.tooShort ↔ buf.length < 48)
    ∧ (NtpPacket.receive buf port ts = Except.error DecodeError.unsupportedVersion ↔
        (48 ≤ buf.length ∧ (byteAt buf 0 / 8 % 8 < 1 ∨ 4 < byteAt buf 0 / 8 % 8)))
    ∧ ((48 ≤ buf.length ∧ 1 ≤ byteAt buf 0 / 8 % 8 ∧ byteAt buf 0 / 8 % 8 ≤ 4) ↔
        ∃ p, NtpPacket.receive buf port ts = Except.ok p)
    ∧ (∀ e refNow txNow, NtpPacket.receive buf port ts = Except.error e →
        processDatagram buf port ts refNow txNow = none) := by
  by_cases h1 : buf.length < 48
  · have hr : NtpPacket.receive buf port ts = Except.error DecodeError.tooShort := by
      unfold NtpPacket.receive
      rw [if_pos h1]
    refine ⟨?_, ?_, ?_, ?_⟩
    · simp [hr, h1]
    · rw [hr]
      simp only [Except.error.injEq]
      constructor
      · intro h
        cases h
      · intro h
        omega
    · rw [hr]
      constructor
      · intro h
        omega
      · rintro ⟨p, hp⟩
        cases hp
    · intro e refNow txNow _
      simp [processDatagram, hr]
  · by_cases hv : byteAt buf 0 / 8 % 8 < 1 ∨ 4 < byteAt buf 0 / 8 % 8
    · have hr : NtpPacket.receive buf port ts = Except.error DecodeError.unsupportedVersion := by
        unfold NtpPacket.receive
        rw [if_neg h1, if_pos hv]
      refine ⟨?_, ?_, ?_, ?_⟩
      · rw [hr]
        simp only [Except.error.injEq]
        constructor
        · intro h
          cases h
        · intro h
          omega
      · rw [hr]
        simp only [Except.error.injEq]
        constructor
        · intro _
          exact ⟨by omega, hv⟩
        · intro _
          trivial
      · rw [hr]
        constructor
        · intro h
          omega
        · rintro ⟨p, hp⟩
          cases hp
      · intro e refNow txNow _
        simp [processDatagram, hr]
    · have hr : NtpPacket.receive buf port ts =
          Except.ok (NtpPacket.decodeFields buf port ts) := by
        unfold NtpPacket.receive
        rw [if_neg h1, if_neg hv]
      refine ⟨?_, ?_, ?_, ?_⟩
      · rw [hr]
        constructor
        · intro h
          cases h
        · intro h
          omega
      · rw [hr]
        constructor
        · intro h
          cases h
        · intro h
          omega
      · rw [hr]
        constructor
        · intro _
          exact ⟨_, rfl⟩
        · intro _
          omega
      · intro e refNow txNow he
        rw [hr] at he
        cases he

/-- Witness for C3: a concrete 3-byte datagram is rejected as too short. -/
theorem receive_error_taxonomy_witness :
    NtpPacket.receive [1, 2, 3] 0 ⟨0⟩ = Except.error DecodeError.tooShort :=
  (receive_error_taxonomy [1, 2, 3] 0 ⟨0⟩).1.mpr (by decide)

lemma send_decodeFields (buf : List Nat) (port : Nat) (ts : NtpTimestamp)
    (hlen : buf.length = 48) (hbytes : ∀ b ∈ buf, b < 256) :
    (NtpPacket.decodeFields buf port ts).send = buf := by
  have hb : ∀ i, i < 48 → byteAt buf i < 256 := fun i hi =>
    byteAt_lt buf hbytes (by omega)
  have key : sliceBE buf 0 48 = buf := by
    rw [sliceBE_take buf 48 (by omega), ← hlen, List.take_length]
  have a1 : sliceBE buf 0 4 ++ sliceBE buf 4 4 = sliceBE buf 0 8 := by
    have h := sliceBE_append buf 0 4 4
    norm_num at h
    exact h
  have a2 : sliceBE buf 0 8 ++ sliceBE buf 8 4 = sliceBE buf 0 12 := by
    have h := sliceBE_append buf 0 8 4
    norm_num at h
    exact h
  have a3 : sliceBE buf 0 12 ++ sliceBE buf 12 4 = sliceBE buf 0 16 := by
    have h := sliceBE_append buf 0 12 4
    norm_num at h
    exact h
  have a4 : sliceBE buf 0 16 ++ sliceBE buf 16 8 = sliceBE buf 0 24 := by
    have h := sliceBE_append buf 0 16 8
    norm_num at h
    exact h
  have a5 : sliceBE buf 0 24 ++ sliceBE buf 24 8 = sliceBE buf 0 32 := by
    have h := sliceBE_append buf 0 24 8
    norm_num at h
    exact h
  have a6 : sliceBE buf 0 32 ++ sliceBE buf 32 8 = sliceBE buf 0 40 := by
    have h := sliceBE_append buf 0 32 8
    norm_num at h
    exact h
  have a7 : sliceBE buf 0 40 ++ sliceBE buf 40 8 = sliceBE buf 0 48 := by
    have h := sliceBE_append buf 0 40 8
    norm_num at h
    exact h
  show packLVM (byteAt buf 0 / 64) (byteAt buf 0 / 8 % 8) (byteAt buf 0 % 8) ::
      byteAt buf 1 % 256 ::
      i8ToByte (byteToI8 (byteAt buf 2)) ::
      i8ToByte (byteToI8 (byteAt buf 3)) ::
      (writeBE (readBE buf 4 4) 4 ++ writeBE (readBE buf 8 4) 4 ++
        writeBE (readBE buf 12 4) 4 ++ writeBE (readBE buf 16 8) 8 ++
        writeBE (readBE buf 24 8) 8 ++ writeBE (readBE buf 32 8) 8 ++
        writeBE (readBE buf 40 8) 8) = buf
  rw [packLVM_unpack (byteAt buf 0) (hb 0 (by norm_num)),
    Nat.mod_eq_of_lt (hb 1 (by norm_num)),
    i8_roundtrip (byteAt buf 2) (hb 2 (by norm_num)),
    i8_roundtrip (byteAt buf 3) (hb 3 (by norm_num)),
    writeBE_readBE buf 4 4 (fun i hi => hb (4 + i) (by omega)),
    writeBE_readBE buf 8 4 (fun i hi => hb (8 + i) (by omega)),
    writeBE_readBE buf 12 4 (fun i hi => hb (12 + i) (by omega)),
    writeBE_readBE buf 16 8 (fun i hi => hb (16 + i) (by omega)),
    writeBE_readBE buf 24 8 (fun i hi => hb (24 + i) (by omega)),
    writeBE_readBE buf 32 8 (fun i hi => hb (32 + i) (by omega)),
    writeBE_readBE buf 40 8 (fun i hi => hb (40 + i) (by omega))]
  conv_rhs => rw [← key]
  rw [← a7, ← a6, ← a5, ← a4, ← a3, ← a2, ← a1]
  have h03 : sliceBE buf 0 4 =
      [byteAt buf 0, byteAt buf 1, byteAt buf 2, byteAt buf 3] := rfl
  simp [List.append_assoc, h03]

/-- C5: any 48-byte buffer of byte values whose version bits lie in 1..4
decodes successfully, and re-encoding the decoded packet reproduces the
original 48 bytes exactly. -/
theorem decode_encode_roundtrip (buf : List Nat) (port : Nat) (ts : NtpTimestamp)
    (hlen : buf.length = 48) (hbytes : ∀ b ∈ buf, b < 256)
    (hv1 : 1 ≤ byteAt buf 0 / 8 % 8) (hv4 : byteAt buf 0 / 8 % 8 ≤ 4) :
    ∃ p, NtpPacket.receive buf port ts = Except.ok p ∧ p.send = buf := by
  refine ⟨NtpPacket.decodeFields buf port ts, ?_,
    send_decodeFields buf port ts hlen hbytes⟩
  unfold NtpPacket.receive
  rw [if_neg (by omega), if_neg (by omega)]

/-- Witness for C5 on the concrete request `reqBuf`. -/
theorem decode_encode_roundtrip_witness :
    ∃ p, NtpPacket.receive reqBuf 999 ⟨5⟩ = Except.ok p ∧ p.send = reqBuf :=
  decode_encode_roundtrip reqBuf 999 ⟨5⟩ (by decide) (by decide) (by decide) (by decide)

lemma byteAt_eq_of_take_eq {buf1 buf2 : List Nat}
    (h : buf1.take 48 = buf2.take 48) {i : Nat} (hi : i < 48) :
    byteAt buf1 i = byteAt buf2 i := by
  unfold byteAt
  rw [← List.getElem?_take_of_lt (l := buf1) (n := 48) hi,
    ← List.getElem?_take_of_lt (l := buf2) (n := 48) hi, h]

lemma readBE_congr {buf1 buf2 : List Nat} (off : Nat)
    (h : ∀ i, i < 48 → byteAt buf1 i = byteAt buf2 i) :
    ∀ n, off + n ≤ 48 → readBE buf1 off n = readBE buf2 off n := by
  intro n
  induction n with
  | zero => intro _; rfl
  | succ n ih =>
    intro hn
    simp only [readBE, ih (by omega), h (off + n) (by omega)]

/-- C7: decoding (and hence the whole per-datagram outcome) depends only
on the first 48 bytes of the datagram — trailing bytes are ignored — and
the encoder always emits exactly 48 bytes. -/
theorem first48_and_send_length :
    (∀ buf1 buf2 : List Nat, ∀ port : Nat, ∀ ts : NtpTimestamp,
      48 ≤ buf1.length → 48 ≤ buf2.length → buf1.take 48 = buf2.take 48 →
      NtpPacket.receive buf1 port ts = NtpPacket.receive buf2 port ts
      ∧ ∀ refNow txNow, processDatagram buf1 port ts refNow txNow =
          processDatagram buf2 port ts refNow txNow)
    ∧ ∀ p : NtpPacket, p.send.length = 48 := by
  constructor
  · intro buf1 buf2 port ts h1 h2 ht
    have hB : ∀ i, i < 48 → byteAt buf1 i = byteAt buf2 i := fun i hi =>
      byteAt_eq_of_take_eq ht hi
    have hd : NtpPacket.decodeFields buf1 port ts = NtpPacket.decodeFields buf2 port ts := by
      unfold NtpPacket.decodeFields NtpTimestamp.read NtpFracValue.read
      rw [hB 0 (by norm_num), hB 1 (by norm_num), hB 2 (by norm_num), hB 3 (by norm_num),
        readBE_congr 4 hB 4 (by norm_num), readBE_congr 8 hB 4 (by norm_num),
        readBE_congr 12 hB 4 (by norm_num), readBE_congr 16 hB 8 (by norm_num),
        readBE_congr 24 hB 8 (by norm_num), readBE_congr 32 hB 8 (by norm_num),
        readBE_congr 40 hB 8 (by norm_num)]
    have hrec : NtpPacket.receive buf1 port ts = NtpPacket.receive buf2 port ts := by
      have e1 : NtpPacket.receive buf1 port ts =
          (if (byteAt buf1 0 / 8) % 8 < 1 ∨ 4 < (byteAt buf1 0 / 8) % 8 then
            Except.error DecodeError.unsupportedVersion
          else Except.ok (NtpPacket.decodeFields buf1 port ts)) := by
        unfold NtpPacket.receive
        rw [if_neg (by omega)]
      have e2 : NtpPacket.receive buf2 port ts =
          (if (byteAt buf2 0 / 8) % 8 < 1 ∨ 4 < (byteAt buf2 0 / 8) % 8 then
            Except.error DecodeError.unsupportedVersion
          else Except.ok (NtpPacket.decodeFields buf2 port ts)) := by
        unfold NtpPacket.receive
        rw [if_neg (by omega)]
      rw [e1, e2, hB 0 (by norm_num), hd]
    refine ⟨hrec, ?_⟩
    intro refNow txNow
    unfold processDatagram
    rw [hrec]
  · intro p
    simp [NtpPacket.send, NtpTimestamp.write, NtpFracValue.write, writeBE_length]

/-- Witness for C7: appending a trailing byte to the concrete request does
not change its decoding, and the concrete response serializes to 48 bytes. -/
theorem first48_and_send_length_witness :
    NtpPacket.receive (reqBuf ++ [200]) 999 ⟨5⟩ = NtpPacket.receive reqBuf 999 ⟨5⟩ ∧
    respPkt.send.length = 48 :=
  ⟨(first48_and_send_length.1 (reqBuf ++ [200]) reqBuf 999 ⟨5⟩
      (by decide) (by decide) (by decide)).1,
   first48_and_send_length.2 respPkt⟩

/-- C10: every packet the program constructs — decoded or synthesized —
has leap at most 3, mode at most 7 and version in 1..4, the byte-0 packing
on such fields is the exact sum with no truncated bits, and that packing
is injective. -/
theorem constructed_packet_invariants :
    (∀ buf : List Nat, ∀ port : Nat, ∀ ts : NtpTimestamp, ∀ p : NtpPacket,
      (∀ b ∈ buf, b < 256) → NtpPacket.receive buf port ts = Except.ok p →
      (p.leap ≤ 3 ∧ p.mode ≤ 7 ∧ 1 ≤ p.version ∧ p.version ≤ 4)
      ∧ ∀ refNow txNow : NtpTimestamp, ∀ r : NtpPacket,
          p.make_response refNow txNow = some r →
          r.leap ≤ 3 ∧ r.mode ≤ 7 ∧ 1 ≤ r.version ∧ r.version ≤ 4)
    ∧ (∀ l, l ≤ 3 → ∀ v, v ≤ 7 → ∀ m, m ≤ 7 → packLVM l v m = l * 64 + v * 8 + m)
    ∧ (∀ l v m l2 v2 m2 : Nat, l ≤ 3 → v ≤ 7 → m ≤ 7 → l2 ≤ 3 → v2 ≤ 7 → m2 ≤ 7 →
        packLVM l v m = packLVM l2 v2 m2 → l = l2 ∧ v = v2 ∧ m = m2) := by
  refine ⟨?_, packLVM_eq_add, ?_⟩
  · intro buf port ts p hbytes hrec
    unfold NtpPacket.receive at hrec
    split at hrec
    · exact absurd hrec (by simp)
    case isFalse h1 =>
      split at hrec
      · exact absurd hrec (by simp)
      case isFalse h2 =>
        simp only [Except.ok.injEq] at hrec
        subst hrec
        have hb0 : byteAt buf 0 < 256 := byteAt_lt buf hbytes (by omega)
        constructor
        · simp only [NtpPacket.decodeFields]
          omega
        · intro refNow txNow r hresp
          unfold NtpPacket.make_response at hresp
          split at hresp
          · exact absurd hresp (by simp)
          · simp only [Option.some.injEq] at hresp
            subst hresp
            refine ⟨by norm_num, ?_, ?_, ?_⟩
            · show (if (NtpPacket.decodeFields buf port ts).mode = 1 then 2 else 4 : Nat) ≤ 7
              split
              · norm_num
              · norm_num
            · show 1 ≤ (NtpPacket.decodeFields buf port ts).version
              simp only [NtpPacket.decodeFields]
              omega
            · show (NtpPacket.decodeFields buf port ts).version ≤ 4
              simp only [NtpPacket.decodeFields]
              omega
  · intro l v m l2 v2 m2 hl hv hm hl2 hv2 hm2 heq
    rw [packLVM_eq_add l hl v hv m hm, packLVM_eq_add l2 hl2 v2 hv2 m2 hm2] at heq
    omega

/-- Witness for C10: the invariants hold of the concretely decoded request
and the packing of its byte 0 is the exact sum. -/
theorem constructed_packet_invariants_witness :
    (reqPkt.leap ≤ 3 ∧ reqPkt.mode ≤ 7 ∧ 1 ≤ reqPkt.version ∧ reqPkt.version ≤ 4)
    ∧ packLVM 0 4 3 = 0 * 64 + 4 * 8 + 3 :=
  ⟨(constructed_packet_invariants.1 reqBuf 999 ⟨5⟩ reqPkt (by decide) (by rfl)).1,
   constructed_packet_invariants.2.1 0 (by norm_num) 4 (by norm_num) 3 (by norm_num)⟩

/-- The short bind flag. -/
def flagB : String := "-b"

/-- The long debug flag. -/
def flagDebug : String := "--debug"

/-- The environment variable mirroring `--debug`. -/
def envKeyDebug : String := "KISS_NTPD_DEBUG"

/-- An empty process environment. -/
def envEmptyFn : String → Option String := fun _ => none

/-- A non-recognized truthy-by-default environment value. -/
def noS : String := "no"

/-- A process environment where only the debug mirror is set, to `"no"`. -/
def envNoFn : String → Option String :=
  fun k => if k == envKeyDebug then some noS else none

/-- C8 counterexample: the flag `-b` is accepted by the program but, since
`arg_to_env` requires a leading `--`, it has no mirrored environment
variable at all — so not every accepted flag has a mirrored environment
variable. -/
theorem flag_env_mirror_counterexample :
    flagB ∈ acceptedFlags ∧ arg_to_env flagB = none ∧
    ¬ (∀ f ∈ acceptedFlags, ∃ e, arg_to_env f = some e) := by
  refine ⟨by decide, by rfl, ?_⟩
  intro h
  rcases h flagB (by decide) with ⟨e, he⟩
  rw [show arg_to_env flagB = none from rfl] at he
  cases he

/-- C8 (amended): only the long-form flags (those starting with `--`) have
a mirrored environment variable, named by the claimed transformation; the
short flags have none; and a flag or option present on the command line
takes precedence over the environment. -/
theorem flag_env_mirror_amended :
    (∀ f ∈ acceptedFlags, startsDashDash f.toList = true →
      arg_to_env f = some (specEnvName f))
    ∧ (∀ f ∈ acceptedFlags, startsDashDash f.toList = false → arg_to_env f = none)
    ∧ (∀ args : List String, ∀ env : String → Option String, ∀ f : String,
        args.contains f = true → Args.flag args env f = true)
    ∧ (∀ args : List String, ∀ env : String → Option String,
        ∀ flags : List String, ∀ v : String,
        getOptionCmd args flags = some v → Args.get_option args env flags = some v) := by
  refine ⟨by decide, by decide, ?_, ?_⟩
  · intro args env f h
    unfold Args.flag
    rw [if_pos h]
  · intro args env flags v h
    simp [Args.get_option, h]

/-- Witness for C8 (amended): the concrete mirror of `--debug`, and
command-line precedence for a concrete argument vector. -/
theorem flag_env_mirror_amended_witness :
    arg_to_env flagDebug = some (specEnvName flagDebug) ∧
    Args.flag [flagDebug] envEmptyFn flagDebug = true :=
  ⟨flag_env_mirror_amended.1 flagDebug (by decide) (by decide),
   flag_env_mirror_amended.2.2.1 [flagDebug] envEmptyFn flagDebug (by decide)⟩

/-- C9: for a flag absent from the command line whose mirrored environment
variable exists, `Args.flag` is false when the variable is unset or set to
exactly `""`, `"0"` or `"false"`, and true for every other value. -/
theorem flag_env_fallback_semantics (args : List String) (env : String → Option String)
    (f key : String) (hc : args.contains f = false) (hk : arg_to_env f = some key) :
    (env key = none → Args.flag args env f = false)
    ∧ (∀ v, env key = some v → (v = "" ∨ v = "0" ∨ v = "false") →
        Args.flag args env f = false)
    ∧ (∀ v, env key = some v → v ≠ "" → v ≠ "0" → v ≠ "false" →
        Args.flag args env f = true) := by
  have hflag : Args.flag args env f =
      (match env_for_arg env f with
        | some e => (e != "") && (e != "0") && (e != "false")
        | none => false) := by
    unfold Args.flag
    rw [if_neg (by rw [hc]; decide)]
  refine ⟨?_, ?_, ?_⟩
  · intro he
    rw [hflag]
    simp [env_for_arg, hk, he]
  · intro v hv hval
    rw [hflag]
    simp only [env_for_arg, hk, Option.some_bind, hv]
    rcases hval with h | h | h <;> simp [h]
  · intro v hv h1 h2 h3
    rw [hflag]
    simp only [env_for_arg, hk, Option.some_bind, hv]
    simp [Bool.and_eq_true, bne_iff_ne, h1, h2, h3]

/-- Witness for C9: with `--debug` absent from the command line and
`KISS_NTPD_DEBUG` set to `"no"`, the flag reads as true. -/
theorem flag_env_fallback_semantics_witness :
    Args.flag [] envNoFn flagDebug = true :=
  (flag_env_fallback_semantics [] envNoFn flagDebug envKeyDebug
      (by decide) (by decide)).2.2
    noS (by decide) (by decide) (by decide) (by decide)
